import Mathlib

/-!
Verification development for the robust-preview-server build pipeline.
The definitions below are shallow embeddings of the JavaScript source:
src/routes/build.js (HTTP build handler), src/services/buildService.js
(command execution, install fallback, build), src/utils/validation.js
(payload schema, project-structure validation) and src/utils/fileSystem.js
(staging writes, directory size, retention sweep, disk check).
-/

namespace RobustPreview

/-- Decidable equality of Except values, needed to evaluate the models on
concrete inputs. -/
instance {ε α : Type} [DecidableEq ε] [DecidableEq α] :
    DecidableEq (Except ε α) := fun a b =>
  match a, b with
  | Except.error x, Except.error y =>
    if h : x = y then isTrue (by rw [h])
    else isFalse (by intro he; cases he; exact h rfl)
  | Except.error _, Except.ok _ => isFalse (by intro he; cases he)
  | Except.ok _, Except.error _ => isFalse (by intro he; cases he)
  | Except.ok x, Except.ok y =>
    if h : x = y then isTrue (by rw [h])
    else isFalse (by intro he; cases he; exact h rfl)

/-- JS String.prototype.includes modelled as substring containment on the
character data (used by the payload key validator, validation.js line 10). -/
def jsIncludes (sub s : String) : Bool := decide (sub.data <:+: s.data)

/-- Split a character list at every occurrence of a separator character
(the semantics of String.split on one separator: "a/b" gives two groups,
a leading or trailing separator gives an empty group). -/
def charsSplit (sep : Char) : List Char → List (List Char)
  | [] => [[]]
  | c :: rest =>
    let r := charsSplit sep rest
    if c = sep then [] :: r
    else
      match r with
      | [] => [[c]]
      | g :: gs => (c :: g) :: gs

/-- Join character-list segments with a slash. -/
def joinSlash : List (List Char) → List Char
  | [] => []
  | [g] => g
  | g :: gs => g ++ '/' :: joinSlash gs

/-- Node path.posix.isAbsolute: the string starts with a slash
(validation.js line 10 uses path.isAbsolute). -/
def jsIsAbsolute (s : String) : Bool := s.data.head? = some '/'

/-- Segment resolution of Node path.posix.normalize: empty and single-dot
segments are dropped; a dot-dot segment pops the previous real segment, is
dropped at the root of an absolute path, and is kept at the head of a
relative path. -/
def normSegs (isAbs : Bool) (acc : List (List Char)) :
    List (List Char) → List (List Char)
  | [] => acc.reverse
  | seg :: rest =>
    if seg = [] || seg = ['.'] then
      normSegs isAbs acc rest
    else if seg = ['.', '.'] then
      match acc with
      | top :: accRest =>
        if top = ['.', '.'] then normSegs isAbs (seg :: acc) rest
        else normSegs isAbs accRest rest
      | [] => if isAbs then normSegs isAbs [] rest else normSegs isAbs [seg] rest
    else
      normSegs isAbs (seg :: acc) rest

/-- Node path.posix.normalize on character data. -/
def jsNormalizeCh (cs : List Char) : List Char :=
  if cs = [] then ['.']
  else
    let isAbs := cs.head? = some '/'
    let trail := cs.getLast? = some '/'
    let core := joinSlash (normSegs isAbs [] (charsSplit '/' cs))
    if core = [] then
      if isAbs then ['/'] else if trail then ['.', '/'] else ['.']
    else
      let withTrail := if trail then core ++ ['/'] else core
      if isAbs then '/' :: withTrail else withTrail

/-- Node path.posix.normalize (validation.js line 15 and inside path.join). -/
def jsNormalize (p : String) : String := String.mk (jsNormalizeCh p.data)

/-- Node path.posix.join on two parts (build.js lines 51 and 64): concatenate
the non-empty parts with a slash and normalize the result. -/
def jsJoin (a b : String) : String :=
  let joined :=
    if a.data = [] then b.data
    else if b.data = [] then a.data
    else a.data ++ '/' :: b.data
  if joined = [] then "." else String.mk (jsNormalizeCh joined)

/-- Index of the last occurrence of a character in a character list
(helper for the Node path.dirname and path.extname models). -/
def lastIdxOf (c : Char) (cs : List Char) : Option Nat :=
  match cs.reverse.findIdx? (fun d => d = c) with
  | none => none
  | some j => some (cs.length - 1 - j)

/-- Node path.posix.dirname, used by writeFileSecure to create the parent
directory (fileSystem.js line 102). -/
def jsDirname (p : String) : String :=
  let noTrail := (p.data.reverse.dropWhile (fun c => c = '/')).reverse
  if noTrail = [] then (if jsIsAbsolute p then "/" else ".")
  else
    match lastIdxOf '/' noTrail with
    | none => "."
    | some i => if i = 0 then "/" else String.mk (noTrail.take i)

/-- Node path.extname (validation.js line 38): extension of the final path
component; empty for dotfiles and components made only of dots. -/
def jsExtname (p : String) : String :=
  let base := (charsSplit '/' p.data).getLastD []
  match lastIdxOf '.' base with
  | none => ""
  | some i =>
    if i = 0 then ""
    else if (base.take i).all (fun c => c = '.') then ""
    else String.mk (base.drop i)

/-- JS String.prototype.toLowerCase restricted to the characters the
repository uses. -/
def jsToLower (s : String) : String := String.mk (s.data.map Char.toLower)

/-- JS String.prototype.trim (used by runCommand when picking the error
detail, buildService.js line 58). -/
def jsTrim (s : String) : String :=
  String.mk (((s.data.dropWhile Char.isWhitespace).reverse.dropWhile
    Char.isWhitespace).reverse)

/-- File content in the build payload: either a JS string or a structured
(JSON) value, which staging serializes with JSON.stringify(content, null, 2)
(fileSystem.js line 105); the model carries the serialized form. -/
inductive Content where
  | text (s : String)
  | structured (serialized : String)
deriving DecidableEq

/-- Value schema of buildPayloadSchema (validation.js lines 22-25):
a string of at most 1024*1024 units, or any object. -/
def contentOk : Content → Bool
  | Content.text s => s.data.length ≤ 1048576
  | Content.structured _ => true

/-- Key schema of buildPayloadSchema (validation.js lines 8-21): reject keys
containing a dot-dot substring or absolute keys; additionally reject keys
that do not survive path normalization unless they contain a slash. -/
def keyOk (k : String) : Bool :=
  if jsIncludes ".." k || jsIsAbsolute k then false
  else if jsNormalizeCh k.data ≠ k.data && !(jsIncludes "/" k) then false
  else true

/-- buildPayloadSchema (validation.js lines 6-27): the files object must have
between 1 and 100 keys, every key must pass the safe-path custom check and
every value the string-or-object alternative. Returns true when validation
succeeds. The definition takes no configuration: the schema caps are fixed
independently of the configured limits. -/
def buildPayloadValidate (files : List (String × Content)) : Bool :=
  1 ≤ files.length && files.length ≤ 100
    && files.all (fun kc => keyOk kc.1 && contentOk kc.2)

/-- Main configuration files accepted by validateProjectStructure
(validation.js lines 47-49). -/
def mainConfigNames : List String :=
  ["package.json", "vite.config.js", "vite.config.ts",
   "astro.config.mjs", "astro.config.js"]

/-- Allowed file extensions (validation.js lines 30-35). -/
def allowedExtensions : List String :=
  [".js", ".jsx", ".ts", ".tsx", ".json", ".html", ".css", ".scss", ".sass",
   ".vue", ".svelte", ".astro", ".md", ".mdx", ".txt", ".env", ".gitignore",
   ".yml", ".yaml", ".toml", ".xml", ".svg", ".ico", ".png", ".jpg", ".jpeg",
   ".gif", ".webp", ".woff", ".woff2", ".ttf", ".eot"]

/-- validateFileExtension (validation.js lines 37-40). -/
def validateFileExtension (p : String) : Bool :=
  let e := jsToLower (jsExtname p)
  allowedExtensions.contains e || e = ""

/-- validateProjectStructure (validation.js lines 43-63) as a boolean:
true when the file set has a main configuration file and every key has an
allowed extension; the source throws when this is false. -/
def validateProjectStructureB (files : List (String × Content)) : Bool :=
  files.any (fun kc => mainConfigNames.contains kc.1)
    && files.all (fun kc => validateFileExtension kc.1)

/-- Specification-level notion of a path key containing a parent-directory
segment: the character data decomposes around a dot-dot that is delimited on
the left by the start of the string or a slash and on the right by the end of
the string or a slash. -/
def HasParentSegment (k : String) : Prop :=
  ∃ pre post : List Char,
    k.data = pre ++ '.' :: '.' :: post
      ∧ (pre = [] ∨ ∃ pre2, pre = pre2 ++ ['/'])
      ∧ (post = [] ∨ ∃ post2, post = '/' :: post2)

/-- Filesystem side effects performed by the build route and the staging
helpers. -/
inductive FsOp where
  | mkdirp (p : String)
  | writeFile (p : String)
  | removeDir (p : String)
deriving DecidableEq

/-- Error classification of a failed build request, mirroring where the
route handler of build.js can throw. -/
inductive ErrKind where
  | insufficientDisk
  | validationFailed
  | structureInvalid
  | tooManyFiles
  | dirCreateFailed
  | fileWriteFailed
  | projectTooLarge
  | referenceError (ident : String)
  | buildFailed (msg : String)
deriving DecidableEq

/-- writeFileSecure (fileSystem.js lines 99-113): ensure the parent directory
of the full path exists, serialize structured content with JSON.stringify,
and write the file. The two booleans are the outcomes of the mkdir and write
calls. The function performs no check that the path stays inside any root. -/
def writeFileSecure (fullPath : String) (content : Content)
    (mkdirOk writeOk : Bool) : List FsOp × Except ErrKind Unit :=
  match content with
  | _ =>
    if !mkdirOk then ([FsOp.mkdirp (jsDirname fullPath)], Except.error ErrKind.dirCreateFailed)
    else if !writeOk then
      ([FsOp.mkdirp (jsDirname fullPath), FsOp.writeFile fullPath],
        Except.error ErrKind.fileWriteFailed)
    else
      ([FsOp.mkdirp (jsDirname fullPath), FsOp.writeFile fullPath], Except.ok ())

/-- Specification-level containment check: the normalized path equals the
root or lives strictly below it. The claim about staging says writeFileSecure
verifies this; the definition exists to compare the claim with the code. -/
def withinRoot (root p : String) : Bool :=
  let rp := jsNormalizeCh p.data
  rp = root.data || (root.data ++ ['/']) <+: rp

/-- A filesystem tree as seen by getDirectorySize: files carry their stat
outcome, directories the outcome of reading their entry list. -/
inductive FsNode where
  | fileN (name : String) (size : Nat) (okStat : Bool)
  | dirN (name : String) (okRead : Bool) (children : List FsNode)

mutual
/-- getDirectorySize (fileSystem.js lines 136-156): sum the sizes below a
directory; any error caught at a given call makes that call return 0, while
errors inside a sub-directory only zero the sub-directory contribution. -/
def dirSize : FsNode → Nat
  | FsNode.fileN _ sz ok => if ok then sz else 0
  | FsNode.dirN _ okRead children =>
    if okRead then
      match levelSize children with
      | some n => n
      | none => 0
    else 0

/-- One level of the getDirectorySize loop: none signals a stat error at this
level, which the enclosing call turns into 0. -/
def levelSize : List FsNode → Option Nat
  | [] => some 0
  | FsNode.dirN n okRead cs :: rest =>
    match levelSize rest with
    | some r => some (dirSize (FsNode.dirN n okRead cs) + r)
    | none => none
  | FsNode.fileN _ sz ok :: rest =>
    if ok then
      match levelSize rest with
      | some r => some (sz + r)
      | none => none
    else none
end

mutual
/-- Whether any stat or readdir error occurs anywhere in the tree. -/
def nodeHasErr : FsNode → Bool
  | FsNode.fileN _ _ ok => !ok
  | FsNode.dirN _ okRead children => !okRead || forestHasErr children

/-- Whether any error occurs in a list of trees. -/
def forestHasErr : List FsNode → Bool
  | [] => false
  | t :: rest => nodeHasErr t || forestHasErr rest
end

/-- The staged-size quota comparison of the route (build.js line 72):
the request is rejected when the measured size strictly exceeds the
configured maximum project size. -/
def quotaRejects (size maxProjectSize : Nat) : Bool := maxProjectSize < size

/-- A top-level entry of the previews directory as seen by the retention
sweep: its name, whether it is a directory, and its last-modification time
in milliseconds. -/
structure DirEntry where
  name : String
  isDir : Bool
  mtimeMs : Nat
deriving DecidableEq

/-- The age test of cleanupOldPreviews (fileSystem.js lines 186-188):
an entry is over age when now minus its mtime strictly exceeds the
configured maximum age. -/
def isOverAge (now maxAge : Int) (e : DirEntry) : Bool :=
  e.isDir && decide (maxAge < now - (e.mtimeMs : Int))

/-- The entry loop of cleanupOldPreviews (fileSystem.js lines 182-194):
over-age directories are removed in order; a removal failure throws out of
the loop, so the result is the list of names removed before the failure and
an optional error message. removeOk gives the outcome of each removal. -/
def sweepLoop (now maxAge : Int) (removeOk : String → Bool) :
    List DirEntry → List String × Option String
  | [] => ([], none)
  | e :: rest =>
    if isOverAge now maxAge e then
      if removeOk e.name then
        let r := sweepLoop now maxAge removeOk rest
        (e.name :: r.1, r.2)
      else ([], some ("Falha ao remover diretório: " ++ e.name))
    else sweepLoop now maxAge removeOk rest

/-- Result of one invocation of cleanupOldPreviews. The JavaScript function
returns undefined on every path (there is no return value carrying the
count), which the model records as retVal none; the names actually removed
and the sweep-level logged error are kept for the theorems. -/
structure SweepResult where
  removed : List String
  loggedErr : Option String
  retVal : Option Nat
deriving DecidableEq

/-- cleanupOldPreviews (fileSystem.js lines 170-202): nothing happens when
the previews directory does not exist; otherwise the entry loop runs and a
thrown removal error is caught and logged by the surrounding try/catch
without rethrowing. The function never returns the removal count. -/
def cleanupOldPreviews (rootExists : Bool) (now maxAge : Int)
    (removeOk : String → Bool) (entries : List DirEntry) : SweepResult :=
  if !rootExists then { removed := [], loggedErr := none, retVal := none }
  else
    let r := sweepLoop now maxAge removeOk entries
    { removed := r.1, loggedErr := r.2, retVal := none }

/-- One subprocess invocation: executable name and argument list. -/
structure Invocation where
  cmd : String
  args : List String
deriving DecidableEq

/-- The npm install invocation used both as the configured-npm primary and
as the fallback after a pnpm failure (buildService.js lines 139 and 155). -/
def npmInstallInv : Invocation := { cmd := "npm", args := ["install", "--silent"] }

/-- The availability probe for pnpm (buildService.js line 145). -/
def whichPnpmInv : Invocation := { cmd := "which", args := ["pnpm"] }

/-- The build invocation, always npm run build (buildService.js
lines 185-188). -/
def buildInv : Invocation := { cmd := "npm", args := ["run", "build"] }

/-- The pnpm install invocation used when the configured manager is pnpm
(buildService.js lines 138-139 and 146). -/
def pnpmInstallInv : Invocation := { cmd := "pnpm", args := ["install"] }

/-- Whether the pnpm phase of installDependencies fails under a given
execution oracle: the availability probe errors, or pnpm install errors. -/
def pnpmAttemptFails (exec : Invocation → Except String Unit) : Bool :=
  decide (exec whichPnpmInv ≠ Except.ok ())
    || decide (exec pnpmInstallInv ≠ Except.ok ())

/-- installDependencies (buildService.js lines 133-167) against an oracle
giving each invocation's outcome (ok, or the message of the rejection).
Returns the ordered list of invocations attempted and the final outcome.
When the configured manager is pnpm, a failure of the availability probe or
of pnpm install falls back to one npm install; for any other configured
manager the inner catch rethrows, and the outer catch wraps whatever error
reaches it. -/
def installDependencies (pm : String)
    (exec : Invocation → Except String Unit) : List Invocation × Except String Unit :=
  let installArgs := if pm = "npm" then ["install", "--silent"] else ["install"]
  let primaryInv : Invocation := { cmd := pm, args := installArgs }
  let inner : List Invocation × Except String Unit :=
    if pm = "pnpm" then
      match exec whichPnpmInv with
      | Except.error e => ([whichPnpmInv], Except.error e)
      | Except.ok _ =>
        match exec primaryInv with
        | Except.error e => ([whichPnpmInv, primaryInv], Except.error e)
        | Except.ok _ => ([whichPnpmInv, primaryInv], Except.ok ())
    else
      match exec primaryInv with
      | Except.error e => ([primaryInv], Except.error e)
      | Except.ok _ => ([primaryInv], Except.ok ())
  let afterFallback : List Invocation × Except String Unit :=
    match inner with
    | (tr, Except.error e) =>
      if pm = "pnpm" then
        match exec npmInstallInv with
        | Except.ok _ => (tr ++ [npmInstallInv], Except.ok ())
        | Except.error e2 => (tr ++ [npmInstallInv], Except.error e2)
      else (tr, Except.error e)
    | (tr, Except.ok _) => (tr, Except.ok ())
  match afterFallback with
  | (tr, Except.error e) =>
    (tr, Except.error ("Falha na instalação de dependências: " ++ e))
  | (tr, Except.ok _) => (tr, Except.ok ())

/-- runBuild of buildService.js (lines 170-213) against the same execution
oracle: probe node and npm, install dependencies, run npm run build, then
search the fixed candidate list for the first existing output directory.
distExists tells which candidate directories exist after the build;
projectType is the (non-blocking) classification result. -/
def runBuildM (pm : String) (exec : Invocation → Except String Unit)
    (distExists : String → Bool) (projectType : String) :
    List Invocation × Except String (String × String) :=
  match exec (Invocation.mk "which" ["node"]) with
  | Except.error e => ([Invocation.mk "which" ["node"]], Except.error e)
  | Except.ok _ =>
    match exec (Invocation.mk "which" ["npm"]) with
    | Except.error e =>
      ([Invocation.mk "which" ["node"], Invocation.mk "which" ["npm"]],
        Except.error e)
    | Except.ok _ =>
      match installDependencies pm exec with
      | (tr, Except.error e) =>
        (Invocation.mk "which" ["node"] :: Invocation.mk "which" ["npm"] :: tr,
          Except.error e)
      | (tr, Except.ok _) =>
        match exec buildInv with
        | Except.error e =>
          (Invocation.mk "which" ["node"] :: Invocation.mk "which" ["npm"]
              :: tr ++ [buildInv], Except.error e)
        | Except.ok _ =>
          match ["dist", "build", "out", ".next"].find? distExists with
          | some d =>
            (Invocation.mk "which" ["node"] :: Invocation.mk "which" ["npm"]
                :: tr ++ [buildInv], Except.ok (projectType, d))
          | none =>
            (Invocation.mk "which" ["node"] :: Invocation.mk "which" ["npm"]
                :: tr ++ [buildInv],
              Except.error "Diretório de build não encontrado. Verifique se o script de build está configurado corretamente.")

/-- Which process a kill signal is addressed to: the spawned child process
alone, or its whole process group. The source spawns without the detached
option and calls child.kill, which signals only the child process
(buildService.js lines 15-19 and 28). -/
inductive KillTarget where
  | childOnly
  | processGroup
deriving DecidableEq

/-- Failure of one runCommand invocation. The three constructors carry the
distinct messages built at buildService.js lines 29, 58 and 68. -/
inductive CmdFailure where
  | timedOut (timeoutMs : Nat)
  | exitFailure (code : Int) (detail : String)
  | spawnFailure (msg : String)
deriving DecidableEq

/-- Events delivered to the runCommand callbacks, in arrival order: stream
data, the wall-clock timer firing, the close event with the exit code, or a
spawn error. -/
inductive CmdEvent where
  | outData (s : String)
  | errData (s : String)
  | timerFires
  | closed (code : Int)
  | errored (msg : String)
deriving DecidableEq

/-- Whether an event only delivers stream data (touches neither the timer
nor the settlement). -/
def isCmdDataEvent : CmdEvent → Bool
  | CmdEvent.outData _ => true
  | CmdEvent.errData _ => true
  | _ => false

/-- State of one runCommand invocation: whether the setTimeout timer is
still armed, the isTimedOut flag, the promise settlement (settled at most
once), the kill signals issued so far, and the accumulated output. -/
structure CmdState where
  timerArmed : Bool
  isTimedOut : Bool
  settled : Option (Except CmdFailure (String × String))
  kills : List KillTarget
  stdoutAcc : String
  stderrAcc : String

/-- Initial state: the timer is armed as soon as the command is spawned. -/
def cmdInit : CmdState :=
  { timerArmed := true
    isTimedOut := false
    settled := none
    kills := []
    stdoutAcc := ""
    stderrAcc := "" }

/-- One event of runCommand (buildService.js lines 11-71). The timer
callback sets isTimedOut, kills the child process (only the child: the spawn
options include no detached flag and the kill addresses the child pid) and
rejects with the timeout message; close clears the timer and, unless the
timeout already fired, settles from the exit code with stderr-or-stdout as
the failure detail; the error event clears the timer and rejects. A promise
settles only once. -/
def cmdStep (timeoutMs : Nat) (st : CmdState) : CmdEvent → CmdState
  | CmdEvent.outData s => { st with stdoutAcc := st.stdoutAcc ++ s }
  | CmdEvent.errData s => { st with stderrAcc := st.stderrAcc ++ s }
  | CmdEvent.timerFires =>
    if st.timerArmed then
      { st with
          timerArmed := false
          isTimedOut := true
          kills := st.kills ++ [KillTarget.childOnly]
          settled := st.settled.orElse
            (fun _ => some (Except.error (CmdFailure.timedOut timeoutMs))) }
    else st
  | CmdEvent.closed code =>
    let st1 := { st with timerArmed := false }
    if st1.isTimedOut then st1
    else if code ≠ 0 then
      { st1 with
          settled := st1.settled.orElse (fun _ => some (Except.error
            (CmdFailure.exitFailure code
              (if jsTrim st1.stderrAcc ≠ "" then jsTrim st1.stderrAcc
               else jsTrim st1.stdoutAcc)))) }
    else
      { st1 with
          settled := st1.settled.orElse
            (fun _ => some (Except.ok (jsTrim st1.stdoutAcc, jsTrim st1.stderrAcc))) }
  | CmdEvent.errored msg =>
    { st with
        timerArmed := false
        settled := st.settled.orElse
          (fun _ => some (Except.error (CmdFailure.spawnFailure
            ("Erro ao executar comando: " ++ msg)))) }

/-- Run the runCommand state machine over a whole event schedule. -/
def runCommandEvents (timeoutMs : Nat) (events : List CmdEvent) : CmdState :=
  events.foldl (cmdStep timeoutMs) cmdInit

/-- Configuration surface read by the route and the services
(config/index.js, referenced throughout). -/
structure Config where
  previewsDir : String
  maxFiles : Nat
  maxProjectSize : Nat
  packageManager : String
  previewMaxAgeMs : Nat
  buildTimeoutMs : Nat

/-- Result of checkDiskSpace (fileSystem.js lines 205-223); the route only
reads the usage percentage. -/
structure DiskSnapshot where
  usagePercent : Nat

/-- A build request as the route sees it: the validated file set and the
nanoid generated for the project. -/
structure Request where
  files : List (String × Content)
  freshId : String

/-- Environment oracles for one run of the route handler: the disk
snapshot (none when statfs failed), the outcomes of the staging mkdir, of
each file write, the directory-size measurement, the outcome of the cleanup
removal, and the oracles the build service would need. -/
structure Oracles where
  disk : Option DiskSnapshot
  ensureOk : Bool
  writeOk : String → Bool
  sizeResult : Nat
  removeOk : Bool
  exec : Invocation → Except String Unit
  distExists : String → Bool
  projectType : String

/-- The identifiers bound in the lexical scope of the POST /build handler
body (build.js lines 14-135): its parameters and the const/let declarations
of the function body. -/
def handlerLocalScope : List String :=
  ["req", "res", "next", "startTime", "projectId", "projectDir", "diskSpace",
   "error", "value", "files", "fileCount", "writePromises", "projectSize",
   "buildResult", "previewUrl", "duration"]

/-- The identifiers bound at module scope of build.js (lines 1-12): the
imported names and the module-level consts. -/
def handlerModuleScope : List String :=
  ["express", "nanoid", "path", "createContextLogger", "buildPayloadSchema",
   "validateProjectStructure", "writeFileSecure", "ensureDirectory",
   "getDirectorySize", "checkDiskSpace", "removeDirectory", "runBuild",
   "AppError", "config", "router", "logger"]

/-- Whether a bare identifier resolves in the handler (build.js is an ES
module, so an unresolved identifier raises a ReferenceError). -/
def identInScope (x : String) : Bool :=
  handlerLocalScope.contains x || handlerModuleScope.contains x

/-- The filesystem operations staged for one payload entry: writeFileSecure
first ensures the parent directory of the joined path, then writes the file
(build.js lines 63-66, fileSystem.js lines 99-113). -/
def stageOps (projectDir key : String) : List FsOp :=
  [FsOp.mkdirp (jsDirname (jsJoin projectDir key)),
   FsOp.writeFile (jsJoin projectDir key)]

/-- Successful response data of the route (build.js lines 99-109). -/
structure BuildSuccess where
  projectId : String
  projectType : String
  distDir : String
  fileCount : Nat
  projectSize : Nat
deriving DecidableEq

/-- Observable outcome of one handler run: the filesystem operations in
order, the response outcome (the error is the one passed to next and is
always the original failure), whether the catch block ran the workspace
removal, and whether that removal itself failed and was logged. -/
structure HandlerResult where
  fsTrace : List FsOp
  outcome : Except ErrKind BuildSuccess
  cleanupRan : Bool
  cleanupFailedLogged : Bool

/-- The catch block of the route (build.js lines 111-135) for errors thrown
after projectDir was assigned: remove the project directory, log (but
swallow) a removal failure, and pass the original error to next. -/
def finishWithCleanup (projectDir : String) (tr : List FsOp) (e : ErrKind)
    (o : Oracles) : HandlerResult :=
  { fsTrace := tr ++ [FsOp.removeDir projectDir]
    outcome := Except.error e
    cleanupRan := true
    cleanupFailedLogged := !o.removeOk }

/-- The ambient disk check of build.js lines 27-30: reject when a snapshot
was obtained and its usage percentage exceeds 90. -/
def diskRejects (disk : Option DiskSnapshot) : Bool :=
  match disk with
  | some d => 90 < d.usagePercent
  | none => false

/-- The POST /build handler (build.js lines 14-136). Steps in source order:
ambient disk check, payload schema validation, project-structure validation,
file-count limit, directory creation, staged writes (all started together by
Promise.all), staged-size quota, then the build call of line 83 - which
evaluates the bare identifier id, unbound in every enclosing scope. Errors
thrown before projectDir is assigned reach the catch block with projectDir
still null, so no cleanup runs for them. -/
def buildHandler (cfg : Config) (req : Request) (o : Oracles) : HandlerResult :=
  if diskRejects o.disk then
    { fsTrace := [], outcome := Except.error ErrKind.insufficientDisk
      cleanupRan := false, cleanupFailedLogged := false }
  else if !buildPayloadValidate req.files then
    { fsTrace := [], outcome := Except.error ErrKind.validationFailed
      cleanupRan := false, cleanupFailedLogged := false }
  else if !validateProjectStructureB req.files then
    { fsTrace := [], outcome := Except.error ErrKind.structureInvalid
      cleanupRan := false, cleanupFailedLogged := false }
  else if cfg.maxFiles < req.files.length then
    { fsTrace := [], outcome := Except.error ErrKind.tooManyFiles
      cleanupRan := false, cleanupFailedLogged := false }
  else
    let projectDir := jsJoin cfg.previewsDir req.freshId
    if !o.ensureOk then
      finishWithCleanup projectDir [FsOp.mkdirp projectDir]
        ErrKind.dirCreateFailed o
    else
      let wTrace := req.files.flatMap (fun kc => stageOps projectDir kc.1)
      let baseTrace := FsOp.mkdirp projectDir :: wTrace
      if !req.files.all (fun kc => o.writeOk kc.1) then
        finishWithCleanup projectDir baseTrace ErrKind.fileWriteFailed o
      else if quotaRejects o.sizeResult cfg.maxProjectSize then
        finishWithCleanup projectDir baseTrace ErrKind.projectTooLarge o
      else if identInScope "id" then
        match runBuildM cfg.packageManager o.exec o.distExists o.projectType with
        | (_, Except.error e) =>
          finishWithCleanup projectDir baseTrace (ErrKind.buildFailed e) o
        | (_, Except.ok (pt, dd)) =>
          { fsTrace := baseTrace
            outcome := Except.ok
              { projectId := req.freshId, projectType := pt, distDir := dd
                fileCount := req.files.length, projectSize := o.sizeResult }
            cleanupRan := false
            cleanupFailedLogged := false }
      else
        finishWithCleanup projectDir baseTrace (ErrKind.referenceError "id") o

/-- All checks before the workspace directory is created (build.js
lines 27-47): disk, schema, structure, file count. -/
def passesPreStaging (cfg : Config) (req : Request) (o : Oracles) : Bool :=
  !diskRejects o.disk && buildPayloadValidate req.files
    && validateProjectStructureB req.files
    && !(decide (cfg.maxFiles < req.files.length))

/-- All checks and staging steps before the build call of line 83:
the pre-staging checks plus directory creation, the staged writes and the
staged-size quota. -/
def passesPreBuild (cfg : Config) (req : Request) (o : Oracles) : Bool :=
  passesPreStaging cfg req o && o.ensureOk
    && req.files.all (fun kc => o.writeOk kc.1)
    && !quotaRejects o.sizeResult cfg.maxProjectSize

/-- Concrete configuration for the quota-abort run: a tiny maximum project
size so the staged-size check fails. -/
def cfg8 : Config :=
  { previewsDir := "/previews", maxFiles := 100, maxProjectSize := 10
    packageManager := "pnpm", previewMaxAgeMs := 86400000
    buildTimeoutMs := 300000 }

/-- Concrete single-file request for the quota-abort run. -/
def req8 : Request :=
  { files := [("package.json", Content.text "x")], freshId := "p2" }

/-- Concrete oracles for the quota-abort run: staging succeeds but the
measured size 11 exceeds the configured maximum 10. -/
def o8 : Oracles :=
  { disk := none, ensureOk := true, writeOk := fun _ => true
    sizeResult := 11, removeOk := true, exec := fun _ => Except.ok ()
    distExists := fun _ => false, projectType := "generic" }

/-- A key with a parent-directory segment is caught by the dot-dot substring
test of the payload schema. -/
theorem jsIncludes_of_hasParentSegment (k : String)
    (h : HasParentSegment k) : jsIncludes ".." k = true := by
  obtain ⟨pre, post, hk, -, -⟩ := h
  unfold jsIncludes
  apply decide_eq_true
  exact ⟨pre, post, by simpa using hk.symm⟩

/-- C10: independently of the configured maximum file count and maximum
project size (buildPayloadValidate takes no configuration at all), payload
validation rejects every file set with zero files or more than 100 files,
and every file whose textual content exceeds 1,048,576 length units --- the
fixed caps of the Joi schema bound accepted inputs even when the configured
limits are larger. -/
theorem c10_schema_fixed_caps (files : List (String × Content))
    (h : files.length = 0 ∨ 100 < files.length
      ∨ ∃ kc ∈ files, ∃ s, kc.2 = Content.text s ∧ 1048576 < s.data.length) :
    buildPayloadValidate files = false := by
  unfold buildPayloadValidate
  rcases h with h | h | ⟨kc, hmem, s, hs, hlen⟩
  · simp [h]
  · simp [Nat.not_le.mpr h]
  · cases hall : files.all (fun kc => keyOk kc.1 && contentOk kc.2) with
    | false => simp [hall]
    | true =>
      exfalso
      have hkc := List.all_eq_true.mp hall kc hmem
      simp only [Bool.and_eq_true] at hkc
      have hc : contentOk kc.2 = true := hkc.2
      rw [hs] at hc
      unfold contentOk at hc
      simp only [decide_eq_true_eq] at hc
      omega

/-- Witness for C10 at the empty file set. -/
theorem c10_schema_fixed_caps_witness :
    ([] : List (String × Content)).length = 0
      ∧ buildPayloadValidate [] = false :=
  ⟨rfl, c10_schema_fixed_caps [] (Or.inl rfl)⟩

/-- C5: a request whose file set contains a key with a parent-directory
segment or an absolute key is rejected by the payload validation step of the
handler (when the ambient disk check admits the request that far), before
any filesystem write: the trace is empty, so no workspace directory is
created and no file is staged. -/
theorem c5_traversal_rejected_before_write (cfg : Config) (req : Request)
    (o : Oracles) (hdisk : diskRejects o.disk = false)
    (hbad : ∃ kc ∈ req.files, HasParentSegment kc.1 ∨ jsIsAbsolute kc.1 = true) :
    (buildHandler cfg req o).fsTrace = []
      ∧ (buildHandler cfg req o).outcome = Except.error ErrKind.validationFailed
      ∧ (buildHandler cfg req o).cleanupRan = false := by
  obtain ⟨kc, hmem, hk⟩ := hbad
  have hkey : keyOk kc.1 = false := by
    unfold keyOk
    rcases hk with hps | habs
    · rw [jsIncludes_of_hasParentSegment _ hps]
      simp
    · rw [habs]
      simp
  have hval : buildPayloadValidate req.files = false := by
    unfold buildPayloadValidate
    cases hall : req.files.all (fun kc => keyOk kc.1 && contentOk kc.2) with
    | false => simp [hall]
    | true =>
      exfalso
      have hkc := List.all_eq_true.mp hall kc hmem
      simp only [Bool.and_eq_true] at hkc
      rw [hkey] at hkc
      exact Bool.false_ne_true hkc.1
  have hres : buildHandler cfg req o
      = { fsTrace := [], outcome := Except.error ErrKind.validationFailed
          cleanupRan := false, cleanupFailedLogged := false } := by
    unfold buildHandler
    rw [hdisk, hval]
    simp
  rw [hres]
  exact ⟨rfl, rfl, rfl⟩

/-- Witness for C5: a single-file payload keyed by a traversal path is
rejected with an empty filesystem trace. -/
theorem c5_traversal_rejected_before_write_witness :
    diskRejects (none : Option DiskSnapshot) = false
      ∧ HasParentSegment "../evil.js"
      ∧ (buildHandler
          { previewsDir := "/previews", maxFiles := 100
            maxProjectSize := 104857600, packageManager := "pnpm"
            previewMaxAgeMs := 86400000, buildTimeoutMs := 300000 }
          { files := [("../evil.js", Content.text "x")], freshId := "p9" }
          { disk := none, ensureOk := true, writeOk := fun _ => true
            sizeResult := 0, removeOk := true, exec := fun _ => Except.ok ()
            distExists := fun _ => false, projectType := "generic" }).fsTrace = [] := by
  have hps : HasParentSegment "../evil.js" :=
    ⟨[], ['/', 'e', 'v', 'i', 'l', '.', 'j', 's'],
      by decide, Or.inl rfl, Or.inr ⟨['e', 'v', 'i', 'l', '.', 'j', 's'], rfl⟩⟩
  refine ⟨rfl, hps, ?_⟩
  exact (c5_traversal_rejected_before_write _ _ _ (by decide)
    ⟨("../evil.js", Content.text "x"), by decide, Or.inl hps⟩).1

/-- C1: the bare identifier id used by the build call of build.js line 83 is
bound in no enclosing scope, so the handler raises a ReferenceError before
producing the success response: for every input and environment the outcome
is never a success, and every request passing validation, staging and the
size check ends in exactly that reference error. -/
theorem c1_unbound_id_aborts (cfg : Config) (req : Request) (o : Oracles) :
    (∀ s, (buildHandler cfg req o).outcome ≠ Except.ok s)
      ∧ (passesPreBuild cfg req o = true →
          (buildHandler cfg req o).outcome
            = Except.error (ErrKind.referenceError "id")) := by
  have hid : identInScope "id" = false := by decide
  constructor
  · intro s hs
    unfold buildHandler finishWithCleanup at hs
    rw [hid] at hs
    simp only [Bool.false_eq_true, if_false] at hs
    split_ifs at hs
  · intro hp
    unfold passesPreBuild passesPreStaging at hp
    simp only [Bool.and_eq_true, Bool.not_eq_true', decide_eq_false_iff_not] at hp
    obtain ⟨⟨⟨⟨⟨⟨hdisk, hval⟩, hstruct⟩, hcount⟩, hens⟩, hwr⟩, hq⟩ := hp
    unfold buildHandler
    simp [finishWithCleanup, hdisk, hval, hstruct, hens, hwr, hq, hid, hcount]

/-- Witness for C1: a well-formed single-file request with ample limits
passes every step up to the build call and still ends in the reference
error. -/
theorem c1_unbound_id_aborts_witness :
    passesPreBuild
        { previewsDir := "/previews", maxFiles := 100
          maxProjectSize := 104857600, packageManager := "pnpm"
          previewMaxAgeMs := 86400000, buildTimeoutMs := 300000 }
        { files := [("package.json", Content.text "x")], freshId := "p1" }
        { disk := some { usagePercent := 50 }, ensureOk := true
          writeOk := fun _ => true, sizeResult := 0, removeOk := true
          exec := fun _ => Except.ok (), distExists := fun _ => true
          projectType := "vite" } = true
      ∧ (buildHandler
          { previewsDir := "/previews", maxFiles := 100
            maxProjectSize := 104857600, packageManager := "pnpm"
            previewMaxAgeMs := 86400000, buildTimeoutMs := 300000 }
          { files := [("package.json", Content.text "x")], freshId := "p1" }
          { disk := some { usagePercent := 50 }, ensureOk := true
            writeOk := fun _ => true, sizeResult := 0, removeOk := true
            exec := fun _ => Except.ok (), distExists := fun _ => true
            projectType := "vite" }).outcome
        = Except.error (ErrKind.referenceError "id") :=
  ⟨by decide, (c1_unbound_id_aborts _ _ _).2 (by decide)⟩

/-- The last element of a cons followed by an append of a singleton. -/
theorem getLastIsSome (a x : α) (l : List α) :
    (a :: (l ++ [x])).getLast? = some x := by
  rw [← List.cons_append]
  exact List.getLast?_concat _

/-- C8: every request that reaches workspace creation and then fails (write
failure, quota, or the build step, which always fails by C1) runs the catch
block: its filesystem trace ends with the removal of the project directory,
and the outcome passed to next is the original error independently of
whether that removal succeeds --- a removal failure is only logged. -/
theorem c8_cleanup_on_failure (cfg : Config) (req : Request) (o : Oracles)
    (b : Bool) (hps : passesPreStaging cfg req o = true) :
    (∃ e, (buildHandler cfg req o).outcome = Except.error e)
      ∧ (buildHandler cfg req o).cleanupRan = true
      ∧ (buildHandler cfg req o).fsTrace.getLast?
          = some (FsOp.removeDir (jsJoin cfg.previewsDir req.freshId))
      ∧ (buildHandler cfg req { o with removeOk := b }).outcome
          = (buildHandler cfg req o).outcome
      ∧ (buildHandler cfg req { o with removeOk := b }).cleanupFailedLogged
          = !b := by
  have hid : identInScope "id" = false := by decide
  unfold passesPreStaging at hps
  simp only [Bool.and_eq_true, Bool.not_eq_true', decide_eq_false_iff_not] at hps
  obtain ⟨⟨⟨hdisk, hval⟩, hstruct⟩, hcount⟩ := hps
  unfold buildHandler
  by_cases hens : o.ensureOk
  · by_cases hwr : req.files.all (fun kc => o.writeOk kc.1)
    · by_cases hq : quotaRejects o.sizeResult cfg.maxProjectSize
      · simp [finishWithCleanup, hdisk, hval, hstruct, hcount, hens, hwr, hq,
          hid, getLastIsSome]
      · simp [finishWithCleanup, hdisk, hval, hstruct, hcount, hens, hwr, hq,
          hid, getLastIsSome]
    · simp [finishWithCleanup, hdisk, hval, hstruct, hcount, hens, hwr, hid,
        getLastIsSome]
  · simp [finishWithCleanup, hdisk, hval, hstruct, hcount, hens, hid,
      List.getLast?_concat]

/-- Witness for C8: a request passing the pre-staging checks whose staged
size exceeds the quota is aborted, the workspace removal runs and fails, the
failure is logged, and the surfaced error is still the quota error. -/
theorem c8_cleanup_on_failure_witness :
    passesPreStaging cfg8 req8 o8 = true
      ∧ (buildHandler cfg8 req8 { o8 with removeOk := false }).outcome
          = (buildHandler cfg8 req8 o8).outcome
      ∧ (buildHandler cfg8 req8 { o8 with removeOk := false }).cleanupFailedLogged
          = !false :=
  ⟨by decide,
    (c8_cleanup_on_failure cfg8 req8 o8 false (by decide)).2.2.2.1,
    (c8_cleanup_on_failure cfg8 req8 o8 false (by decide)).2.2.2.2⟩

/-- C6 counterexample: the claim says the staging operation itself verifies
that the resolved path stays within the workspace root before writing. At
the concrete escaping path joined from the root /previews/p1 and the key
../../etc/passwd (which the route would produce at build.js line 64), the
resolved path /etc/passwd is outside the root, yet writeFileSecure succeeds
and its trace contains the write at /etc/passwd --- no containment check
exists in fileSystem.js lines 99-113. -/
theorem c6_counterexample :
    withinRoot "/previews/p1" (jsJoin "/previews/p1" "../../etc/passwd") = false
      ∧ (writeFileSecure (jsJoin "/previews/p1" "../../etc/passwd")
          (Content.text "hi") true true).2 = Except.ok ()
      ∧ ((writeFileSecure (jsJoin "/previews/p1" "../../etc/passwd")
          (Content.text "hi") true true).1).contains
            (FsOp.writeFile "/etc/passwd") = true := by
  decide

/-- C6 amended: the staging write joins the key to the workspace root (Node
path.join also normalizes) and then unconditionally creates the parent
directory and writes; it performs no verification that the resolved path
remains within the workspace root --- even for a path that escapes the root,
the write proceeds and succeeds, so path safety rests entirely on the
upstream payload validation. -/
theorem c6_no_containment_check (root fullPath : String) (c : Content)
    (hesc : withinRoot root fullPath = false) :
    (writeFileSecure fullPath c true true)
      = ([FsOp.mkdirp (jsDirname fullPath), FsOp.writeFile fullPath],
          Except.ok ()) := by
  unfold writeFileSecure
  simp

/-- Witness for C6 at the escaping path of the counterexample. -/
theorem c6_no_containment_check_witness :
    withinRoot "/previews/p1" "/previews/p1/../../etc/passwd" = false
      ∧ (writeFileSecure "/previews/p1/../../etc/passwd"
          (Content.text "hi") true true)
        = ([FsOp.mkdirp (jsDirname "/previews/p1/../../etc/passwd"),
            FsOp.writeFile "/previews/p1/../../etc/passwd"], Except.ok ()) :=
  ⟨by decide,
    c6_no_containment_check "/previews/p1" "/previews/p1/../../etc/passwd"
      (Content.text "hi") (by decide)⟩

/-- C9 counterexample: the claim says any error anywhere in the recursive
size computation makes it return 0. In the concrete workspace holding one
readable 5-byte file and one unreadable sub-directory, an error occurs, yet
the computation returns the partial sum 5, not 0: only the erroring
recursive call is zeroed. -/
theorem c9_counterexample :
    nodeHasErr (FsNode.dirN "ws" true
        [FsNode.fileN "a" 5 true, FsNode.dirN "b" false []]) = true
      ∧ dirSize (FsNode.dirN "ws" true
          [FsNode.fileN "a" 5 true, FsNode.dirN "b" false []]) = 5
      ∧ decide (dirSize (FsNode.dirN "ws" true
          [FsNode.fileN "a" 5 true, FsNode.dirN "b" false []]) = 0) = false := by
  decide

/-- C9 amended: when the error occurs in the top-level call --- the workspace
root itself is unreadable --- the size computation returns 0 instead of
failing, and a size of 0 passes the staged-size quota check for every
configured maximum project size greater than zero; an error inside a nested
sub-directory only zeroes that subtree's contribution. -/
theorem c9_unmeasurable_passes_quota (nm : String) (cs : List FsNode)
    (m : Nat) (hm : 0 < m) :
    dirSize (FsNode.dirN nm false cs) = 0
      ∧ quotaRejects (dirSize (FsNode.dirN nm false cs)) m = false := by
  have h0 : dirSize (FsNode.dirN nm false cs) = 0 := by
    unfold dirSize
    simp
  refine ⟨h0, ?_⟩
  rw [h0]
  unfold quotaRejects
  simp

/-- Witness for C9 at an unreadable root and a 100-byte quota. -/
theorem c9_unmeasurable_passes_quota_witness :
    0 < 100
      ∧ dirSize (FsNode.dirN "ws" false [FsNode.fileN "a" 5 true]) = 0
      ∧ quotaRejects (dirSize (FsNode.dirN "ws" false
          [FsNode.fileN "a" 5 true])) 100 = false :=
  ⟨by decide,
    (c9_unmeasurable_passes_quota "ws" [FsNode.fileN "a" 5 true] 100 (by decide)).1,
    (c9_unmeasurable_passes_quota "ws" [FsNode.fileN "a" 5 true] 100 (by decide)).2⟩

/-- C4 counterexample: in an error-free sweep with a 24-hour threshold over
a directory touched 1 second ago and one untouched for slightly over 25
hours, exactly the old directory is removed --- but the function returns no
value at all (undefined), so the returned removal count is not equal to the
number of directories actually deleted (1). -/
theorem c4_counterexample :
    (cleanupOldPreviews true 90001000 86400000 (fun _ => true)
        [{ name := "fresh", isDir := true, mtimeMs := 90000000 },
         { name := "old", isDir := true, mtimeMs := 0 }]).removed = ["old"]
      ∧ (cleanupOldPreviews true 90001000 86400000 (fun _ => true)
          [{ name := "fresh", isDir := true, mtimeMs := 90000000 },
           { name := "old", isDir := true, mtimeMs := 0 }]).removed.length = 1
      ∧ (cleanupOldPreviews true 90001000 86400000 (fun _ => true)
          [{ name := "fresh", isDir := true, mtimeMs := 90000000 },
           { name := "old", isDir := true, mtimeMs := 0 }]).retVal.isSome
        = false := by
  decide

/-- The sweep loop under an all-successful removal oracle removes exactly
the over-age directory entries, in order. -/
theorem sweepLoop_all_ok (now maxAge : Int) (removeOk : String → Bool) :
    ∀ entries : List DirEntry,
      entries.all (fun e => removeOk e.name) = true →
      sweepLoop now maxAge removeOk entries
        = ((entries.filter (isOverAge now maxAge)).map DirEntry.name, none)
  | [], _ => rfl
  | e :: rest, hok => by
    have hoks := List.all_eq_true.mp hok
    have hrest : rest.all (fun e => removeOk e.name) = true :=
      List.all_eq_true.mpr (fun x hx => hoks x (List.mem_cons_of_mem _ hx))
    have he : removeOk e.name = true := hoks e (List.mem_cons_self _ _)
    unfold sweepLoop
    by_cases hage : isOverAge now maxAge e
    · simp [hage, he, sweepLoop_all_ok now maxAge removeOk rest hrest]
    · simp [hage, sweepLoop_all_ok now maxAge removeOk rest hrest]

/-- C4 amended: a single error-free invocation of the retention sweep
removes exactly those top-level directory entries of the workspace root
whose time since last modification strictly exceeds the configured maximum
age; the removal count is only tracked internally for logging, and the
function itself returns no value (undefined), so no removal count is
returned to the caller. -/
theorem c4_sweep_removes_overage (now maxAge : Int) (removeOk : String → Bool)
    (entries : List DirEntry)
    (hok : entries.all (fun e => removeOk e.name) = true) :
    (cleanupOldPreviews true now maxAge removeOk entries).removed
        = (entries.filter (isOverAge now maxAge)).map DirEntry.name
      ∧ (cleanupOldPreviews true now maxAge removeOk entries).loggedErr = none
      ∧ (cleanupOldPreviews true now maxAge removeOk entries).retVal = none := by
  unfold cleanupOldPreviews
  rw [sweepLoop_all_ok now maxAge removeOk entries hok]
  exact ⟨rfl, rfl, rfl⟩

/-- Witness for C4 on the 1-second-old and 25-hour-old directories. -/
theorem c4_sweep_removes_overage_witness :
    ([{ name := "fresh", isDir := true, mtimeMs := 90000000 },
      { name := "old", isDir := true, mtimeMs := 0 }] :
        List DirEntry).all (fun _ => true) = true
      ∧ (cleanupOldPreviews true 90001000 86400000 (fun _ => true)
          [{ name := "fresh", isDir := true, mtimeMs := 90000000 },
           { name := "old", isDir := true, mtimeMs := 0 }]).removed
        = (([{ name := "fresh", isDir := true, mtimeMs := 90000000 },
             { name := "old", isDir := true, mtimeMs := 0 }] :
              List DirEntry).filter (isOverAge 90001000 86400000)).map
            DirEntry.name
      ∧ (cleanupOldPreviews true 90001000 86400000 (fun _ => true)
          [{ name := "fresh", isDir := true, mtimeMs := 90000000 },
           { name := "old", isDir := true, mtimeMs := 0 }]).retVal = none :=
  ⟨by decide,
    (c4_sweep_removes_overage 90001000 86400000 (fun _ => true) _ (by decide)).1,
    (c4_sweep_removes_overage 90001000 86400000 (fun _ => true) _ (by decide)).2.2⟩

/-- C3 counterexample: with three over-age directories a, b, c and a removal
that fails on b, the sweep removes a, logs the failure --- and never visits
or removes c, contradicting the claim that every remaining over-age entry is
still removed. -/
theorem c3_counterexample :
    (cleanupOldPreviews true 100 10 (fun nm => nm != "b")
        [{ name := "a", isDir := true, mtimeMs := 0 },
         { name := "b", isDir := true, mtimeMs := 0 },
         { name := "c", isDir := true, mtimeMs := 0 }]).removed = ["a"]
      ∧ ((cleanupOldPreviews true 100 10 (fun nm => nm != "b")
          [{ name := "a", isDir := true, mtimeMs := 0 },
           { name := "b", isDir := true, mtimeMs := 0 },
           { name := "c", isDir := true, mtimeMs := 0 }]).removed.contains "c")
        = false
      ∧ (cleanupOldPreviews true 100 10 (fun nm => nm != "b")
          [{ name := "a", isDir := true, mtimeMs := 0 },
           { name := "b", isDir := true, mtimeMs := 0 },
           { name := "c", isDir := true, mtimeMs := 0 }]).loggedErr.isSome
        = true := by
  decide

/-- The sweep loop aborts at the first failing removal of an over-age
directory: the removals are exactly the over-age entries of the prefix
before the failure, and the error message of the failed removal is
reported. -/
theorem sweepLoop_abort (now maxAge : Int) (removeOk : String → Bool)
    (e : DirEntry) (post : List DirEntry)
    (he : isOverAge now maxAge e = true) (hfail : removeOk e.name = false) :
    ∀ pre : List DirEntry,
      pre.all (fun d => !(isOverAge now maxAge d) || removeOk d.name) = true →
      sweepLoop now maxAge removeOk (pre ++ e :: post)
        = ((pre.filter (isOverAge now maxAge)).map DirEntry.name,
            some ("Falha ao remover diretório: " ++ e.name))
  | [], _ => by
    unfold sweepLoop
    simp [he, hfail]
  | d :: pre, hok => by
    have hoks := List.all_eq_true.mp hok
    have hpre : pre.all (fun d => !(isOverAge now maxAge d) || removeOk d.name) = true :=
      List.all_eq_true.mpr (fun x hx => hoks x (List.mem_cons_of_mem _ hx))
    have hd := hoks d (List.mem_cons_self _ _)
    rw [List.cons_append]
    unfold sweepLoop
    by_cases hage : isOverAge now maxAge d
    · have hdok : removeOk d.name = true := by
        rw [hage] at hd
        simpa using hd
      simp [hage, hdok, sweepLoop_abort now maxAge removeOk e post he hfail pre hpre]
    · simp [hage, sweepLoop_abort now maxAge removeOk e post he hfail pre hpre]

/-- C3 amended: during one retention sweep, an error while removing one
over-age directory entry is caught and logged by the sweep-level handler and
is not propagated to the caller, but it aborts the sweep: the removals are
exactly the over-age entries preceding the failing one, and the entries
after it are not visited or removed in that invocation. -/
theorem c3_removal_error_aborts_sweep (now maxAge : Int)
    (removeOk : String → Bool) (e : DirEntry)
    (pre post : List DirEntry)
    (he : isOverAge now maxAge e = true) (hfail : removeOk e.name = false)
    (hpre : pre.all (fun d => !(isOverAge now maxAge d) || removeOk d.name) = true) :
    (cleanupOldPreviews true now maxAge removeOk (pre ++ e :: post)).removed
        = (pre.filter (isOverAge now maxAge)).map DirEntry.name
      ∧ (cleanupOldPreviews true now maxAge removeOk (pre ++ e :: post)).loggedErr
        = some ("Falha ao remover diretório: " ++ e.name)
      ∧ (cleanupOldPreviews true now maxAge removeOk (pre ++ e :: post)).retVal
        = none := by
  unfold cleanupOldPreviews
  rw [sweepLoop_abort now maxAge removeOk e post he hfail pre hpre]
  exact ⟨rfl, rfl, rfl⟩

/-- Witness for C3 with over-age a before the failing b and c after it. -/
theorem c3_removal_error_aborts_sweep_witness :
    isOverAge 100 10 { name := "b", isDir := true, mtimeMs := 0 } = true
      ∧ (fun nm => nm != "b") "b" = false
      ∧ (cleanupOldPreviews true 100 10 (fun nm => nm != "b")
          ([{ name := "a", isDir := true, mtimeMs := 0 }]
            ++ { name := "b", isDir := true, mtimeMs := 0 }
              :: [{ name := "c", isDir := true, mtimeMs := 0 }])).removed
        = ([{ name := "a", isDir := true, mtimeMs := 0 }].filter
            (isOverAge 100 10)).map DirEntry.name :=
  ⟨by decide, by decide,
    (c3_removal_error_aborts_sweep 100 10 (fun nm => nm != "b")
      { name := "b", isDir := true, mtimeMs := 0 }
      [{ name := "a", isDir := true, mtimeMs := 0 }]
      [{ name := "c", isDir := true, mtimeMs := 0 }]
      (by decide) (by decide) (by decide)).1⟩

/-- C2 counterexample: with the configured primary package manager npm and a
primary install invocation that fails, no fallback installer is attempted at
all: the attempted-invocation trace is exactly the single npm install, and
the reported error wraps the primary failure --- contradicting the claim
that for every configured primary a failing install triggers exactly one
fallback attempt whose error is the one reported. -/
theorem c2_counterexample :
    installDependencies "npm" (fun _ => Except.error "boom")
        = ([{ cmd := "npm", args := ["install", "--silent"] }],
            Except.error "Falha na instalação de dependências: boom")
      ∧ (installDependencies "yarn" (fun _ => Except.error "boom")).1
        = [{ cmd := "yarn", args := ["install"] }]
      ∧ (installDependencies "yarn"
          (fun _ => Except.error "boom")).1.count npmInstallInv = 0 := by
  decide

/-- The install trace never contains the build invocation: every invocation
recorded by installDependencies has install-style arguments. -/
theorem buildInv_notMem_installTrace (pm : String)
    (exec : Invocation → Except String Unit) :
    buildInv ∉ (installDependencies pm exec).1 := by
  by_cases hpm : pm = "pnpm"
  · subst hpm
    rcases hw : exec (Invocation.mk "which" ["pnpm"]) with e1 | u1
    · rcases hn : exec (Invocation.mk "npm" ["install", "--silent"]) with e3 | u3
      · simp [installDependencies, whichPnpmInv, npmInstallInv, hw, hn, buildInv]
      · simp [installDependencies, whichPnpmInv, npmInstallInv, hw, hn, buildInv]
    · rcases hp : exec (Invocation.mk "pnpm" ["install"]) with e2 | u2
      · rcases hn : exec (Invocation.mk "npm" ["install", "--silent"]) with e3 | u3
        · simp [installDependencies, whichPnpmInv, npmInstallInv, hw, hp, hn, buildInv]
        · simp [installDependencies, whichPnpmInv, npmInstallInv, hw, hp, hn, buildInv]
      · simp [installDependencies, whichPnpmInv, npmInstallInv, hw, hp, buildInv]
  · intro hmem
    rcases hprim : exec (Invocation.mk pm
        (if pm = "npm" then ["install", "--silent"] else ["install"])) with e1 | u1
    · simp only [installDependencies, if_neg hpm, hprim, List.mem_singleton,
        buildInv, Invocation.mk.injEq] at hmem
      obtain ⟨h1, h2⟩ := hmem
      rw [← h1] at h2
      simp at h2
    · simp only [installDependencies, if_neg hpm, hprim, List.mem_singleton,
        buildInv, Invocation.mk.injEq] at hmem
      obtain ⟨h1, h2⟩ := hmem
      rw [← h1] at h2
      simp at h2

/-- C2 amended: only when the configured primary package manager is pnpm
does the fallback apply --- if the pnpm attempt (availability probe or
install) fails, npm install is attempted exactly once, installation succeeds
exactly when that fallback succeeds, and when both fail the reported error
wraps the final (fallback) attempt's message; for every configured manager
the build invocation can only appear after installDependencies succeeded;
primaries other than pnpm get no fallback (see the counterexample). -/
theorem c2_pnpm_fallback_once (exec : Invocation → Except String Unit)
    (hfail : pnpmAttemptFails exec = true) :
    (installDependencies "pnpm" exec).1.count npmInstallInv = 1
      ∧ ((installDependencies "pnpm" exec).2 = Except.ok ()
          ↔ exec npmInstallInv = Except.ok ())
      ∧ (∀ e2, exec npmInstallInv = Except.error e2 →
          (installDependencies "pnpm" exec).2
            = Except.error ("Falha na instalação de dependências: " ++ e2))
      ∧ (∀ pm exec2 (distEx : String → Bool) (pt : String),
          buildInv ∈ (runBuildM pm exec2 distEx pt).1 →
          (installDependencies pm exec2).2 = Except.ok ()) := by
  have hgate : ∀ pm exec2 (distEx : String → Bool) (pt : String),
      buildInv ∈ (runBuildM pm exec2 distEx pt).1 →
      (installDependencies pm exec2).2 = Except.ok () := by
    intro pm exec2 distEx pt hmem
    unfold runBuildM at hmem
    rcases h1 : exec2 (Invocation.mk "which" ["node"]) with e | u1
    · rw [h1] at hmem
      simp [buildInv] at hmem
    · rw [h1] at hmem
      rcases h2 : exec2 (Invocation.mk "which" ["npm"]) with e | u2
      · rw [h2] at hmem
        simp [buildInv] at hmem
      · rw [h2] at hmem
        rcases hinst : installDependencies pm exec2 with ⟨tr, res⟩
        rw [hinst] at hmem
        rcases res with e | u3
        · dsimp only at hmem
          simp only [List.mem_cons] at hmem
          rcases hmem with h | h | h
          · exact absurd h (by decide)
          · exact absurd h (by decide)
          · have hnot := buildInv_notMem_installTrace pm exec2
            rw [hinst] at hnot
            exact absurd h hnot
        · cases u3
          rfl
  rcases hw : exec (Invocation.mk "which" ["pnpm"]) with e1 | u1
  · rcases hn : exec (Invocation.mk "npm" ["install", "--silent"]) with e3 | u3
    · have htr : installDependencies "pnpm" exec
          = ([Invocation.mk "which" ["pnpm"],
              Invocation.mk "npm" ["install", "--silent"]],
            Except.error ("Falha na instalação de dependências: " ++ e3)) := by
        simp [installDependencies, whichPnpmInv, npmInstallInv, hw, hn]
      refine ⟨?_, ?_, ?_, hgate⟩
      · rw [htr]
        dsimp only
        decide
      · rw [htr]
        simp only [npmInstallInv]
        rw [hn]
        simp
      · intro e2 he2
        simp only [npmInstallInv] at he2
        rw [hn] at he2
        injection he2 with hez
        subst hez
        rw [htr]
    · have htr : installDependencies "pnpm" exec
          = ([Invocation.mk "which" ["pnpm"],
              Invocation.mk "npm" ["install", "--silent"]], Except.ok ()) := by
        cases u3
        simp [installDependencies, whichPnpmInv, npmInstallInv, hw, hn]
      refine ⟨?_, ?_, ?_, hgate⟩
      · rw [htr]
        dsimp only
        decide
      · rw [htr]
        simp only [npmInstallInv]
        rw [hn]
        cases u3
        simp
      · intro e2 he2
        simp only [npmInstallInv] at he2
        rw [hn] at he2
        exact absurd he2 (by simp)
  · rcases hp : exec (Invocation.mk "pnpm" ["install"]) with e2 | u2
    · rcases hn : exec (Invocation.mk "npm" ["install", "--silent"]) with e3 | u3
      · have htr : installDependencies "pnpm" exec
            = ([Invocation.mk "which" ["pnpm"], Invocation.mk "pnpm" ["install"],
                Invocation.mk "npm" ["install", "--silent"]],
              Except.error ("Falha na instalação de dependências: " ++ e3)) := by
          cases u1
          simp [installDependencies, whichPnpmInv, npmInstallInv, hw, hp, hn]
        refine ⟨?_, ?_, ?_, hgate⟩
        · rw [htr]
          dsimp only
          decide
        · rw [htr]
          simp only [npmInstallInv]
          rw [hn]
          simp
        · intro e4 he4
          simp only [npmInstallInv] at he4
          rw [hn] at he4
          injection he4 with hez
          subst hez
          rw [htr]
      · have htr : installDependencies "pnpm" exec
            = ([Invocation.mk "which" ["pnpm"], Invocation.mk "pnpm" ["install"],
                Invocation.mk "npm" ["install", "--silent"]], Except.ok ()) := by
          cases u1
          cases u3
          simp [installDependencies, whichPnpmInv, npmInstallInv, hw, hp, hn]
        refine ⟨?_, ?_, ?_, hgate⟩
        · rw [htr]
          dsimp only
          decide
        · rw [htr]
          simp only [npmInstallInv]
          rw [hn]
          cases u3
          simp
        · intro e4 he4
          simp only [npmInstallInv] at he4
          rw [hn] at he4
          exact absurd he4 (by simp)
    · exfalso
      cases u1
      cases u2
      unfold pnpmAttemptFails at hfail
      simp only [whichPnpmInv, pnpmInstallInv] at hfail
      simp [hw, hp] at hfail

/-- Witness for C2: the availability probe for pnpm fails, npm install
succeeds, and installation reports success with exactly one npm install in
the trace. -/
theorem c2_pnpm_fallback_once_witness :
    pnpmAttemptFails
        (fun i => if i = whichPnpmInv then Except.error "no pnpm"
          else Except.ok ()) = true
      ∧ (installDependencies "pnpm"
          (fun i => if i = whichPnpmInv then Except.error "no pnpm"
            else Except.ok ())).1.count npmInstallInv = 1
      ∧ ((installDependencies "pnpm"
          (fun i => if i = whichPnpmInv then Except.error "no pnpm"
            else Except.ok ())).2 = Except.ok ()
          ↔ (fun (i : Invocation) =>
              if i = whichPnpmInv then Except.error "no pnpm"
              else Except.ok ()) npmInstallInv = Except.ok ()) :=
  ⟨by decide,
    (c2_pnpm_fallback_once _ (by decide)).1,
    (c2_pnpm_fallback_once _ (by decide)).2.1⟩

/-- A step never re-arms a cancelled timer. -/
theorem cmdStep_stays_disarmed (ms : Nat) (st : CmdState) (ev : CmdEvent)
    (h : st.timerArmed = false) :
    (cmdStep ms st ev).timerArmed = false := by
  cases ev with
  | outData s => simp [cmdStep, h]
  | errData s => simp [cmdStep, h]
  | timerFires => simp [cmdStep, h]
  | closed code =>
    simp only [cmdStep]
    split_ifs <;> rfl
  | errored msg => simp [cmdStep]

/-- A step with the timer cancelled issues no kill signal. -/
theorem cmdStep_disarmed_kills (ms : Nat) (st : CmdState) (ev : CmdEvent)
    (h : st.timerArmed = false) :
    (cmdStep ms st ev).kills = st.kills := by
  cases ev with
  | outData s => simp [cmdStep]
  | errData s => simp [cmdStep]
  | timerFires => simp [cmdStep, h]
  | closed code =>
    simp only [cmdStep]
    split_ifs <;> rfl
  | errored msg => simp [cmdStep]

/-- A settled promise stays settled with the same value. -/
theorem cmdStep_keeps_settled (ms : Nat) (st : CmdState) (ev : CmdEvent)
    (r : Except CmdFailure (String × String)) (h : st.settled = some r) :
    (cmdStep ms st ev).settled = some r := by
  cases ev with
  | outData s => simpa [cmdStep] using h
  | errData s => simpa [cmdStep] using h
  | timerFires =>
    simp only [cmdStep]
    split_ifs <;> simp [h, Option.orElse]
  | closed code =>
    simp only [cmdStep]
    split_ifs <;> simp [h, Option.orElse]
  | errored msg => simp [cmdStep, h, Option.orElse]

/-- Once the timer is cancelled, no later event changes the kill list. -/
theorem cmdRun_disarmed (ms : Nat) :
    ∀ (evs : List CmdEvent) (st : CmdState), st.timerArmed = false →
      (evs.foldl (cmdStep ms) st).timerArmed = false
        ∧ (evs.foldl (cmdStep ms) st).kills = st.kills
  | [], st, h => ⟨h, rfl⟩
  | ev :: evs, st, h => by
    have h1 := cmdStep_stays_disarmed ms st ev h
    have h2 := cmdStep_disarmed_kills ms st ev h
    have ih := cmdRun_disarmed ms evs (cmdStep ms st ev) h1
    rw [List.foldl_cons]
    exact ⟨ih.1, by rw [ih.2, h2]⟩

/-- Once settled, the settlement survives every later event. -/
theorem cmdRun_keeps_settled (ms : Nat) :
    ∀ (evs : List CmdEvent) (st : CmdState)
      (r : Except CmdFailure (String × String)), st.settled = some r →
      (evs.foldl (cmdStep ms) st).settled = some r
  | [], _, _, h => h
  | ev :: evs, st, r, h => by
    rw [List.foldl_cons]
    exact cmdRun_keeps_settled ms evs _ r (cmdStep_keeps_settled ms st ev r h)

/-- A data event changes only the accumulated output. -/
theorem cmdStep_data (ms : Nat) (st : CmdState) (ev : CmdEvent)
    (h : isCmdDataEvent ev = true) :
    (cmdStep ms st ev).timerArmed = st.timerArmed
      ∧ (cmdStep ms st ev).isTimedOut = st.isTimedOut
      ∧ (cmdStep ms st ev).settled = st.settled
      ∧ (cmdStep ms st ev).kills = st.kills := by
  cases ev with
  | outData s => simp [cmdStep]
  | errData s => simp [cmdStep]
  | timerFires => simp [isCmdDataEvent] at h
  | closed code => simp [isCmdDataEvent] at h
  | errored msg => simp [isCmdDataEvent] at h

/-- A run of data events preserves timer, timeout flag, settlement and
kills. -/
theorem cmdRun_data (ms : Nat) :
    ∀ (evs : List CmdEvent) (st : CmdState), evs.all isCmdDataEvent = true →
      (evs.foldl (cmdStep ms) st).timerArmed = st.timerArmed
        ∧ (evs.foldl (cmdStep ms) st).isTimedOut = st.isTimedOut
        ∧ (evs.foldl (cmdStep ms) st).settled = st.settled
        ∧ (evs.foldl (cmdStep ms) st).kills = st.kills
  | [], st, _ => ⟨rfl, rfl, rfl, rfl⟩
  | ev :: evs, st, hall => by
    have hd : isCmdDataEvent ev = true :=
      List.all_eq_true.mp hall ev (List.mem_cons_self _ _)
    have htl : evs.all isCmdDataEvent = true :=
      List.all_eq_true.mpr
        (fun x hx => List.all_eq_true.mp hall x (List.mem_cons_of_mem _ hx))
    have hs := cmdStep_data ms st ev hd
    have ih := cmdRun_data ms evs (cmdStep ms st ev) htl
    rw [List.foldl_cons]
    exact ⟨by rw [ih.1, hs.1], by rw [ih.2.1, hs.2.1],
      by rw [ih.2.2.1, hs.2.2.1], by rw [ih.2.2.2, hs.2.2.2]⟩

/-- The close event arriving with the timer armed and nothing settled:
it cancels the timer, issues no kill, and settles from the exit code with
the trimmed stderr-or-stdout detail. -/
theorem closedStep_after_data (ms : Nat) (stp : CmdState) (code : Int)
    (htim : stp.isTimedOut = false) (hset : stp.settled = none)
    (hkil : stp.kills = []) :
    (cmdStep ms stp (CmdEvent.closed code)).timerArmed = false
      ∧ (cmdStep ms stp (CmdEvent.closed code)).kills = []
      ∧ (code ≠ 0 → ∃ d, (cmdStep ms stp (CmdEvent.closed code)).settled
          = some (Except.error (CmdFailure.exitFailure code d)))
      ∧ (code = 0 → ∃ outp, (cmdStep ms stp (CmdEvent.closed code)).settled
          = some (Except.ok outp)) := by
  refine ⟨?_, ?_, ?_, ?_⟩
  · simp only [cmdStep]
    split_ifs <;> rfl
  · simp only [cmdStep]
    split_ifs <;> simp [hkil]
  · intro hc
    refine ⟨if jsTrim stp.stderrAcc ≠ "" then jsTrim stp.stderrAcc
      else jsTrim stp.stdoutAcc, ?_⟩
    simp [cmdStep, htim, hc, hset, Option.orElse]
  · intro hc
    subst hc
    refine ⟨(jsTrim stp.stdoutAcc, jsTrim stp.stderrAcc), ?_⟩
    simp [cmdStep, htim, hset, Option.orElse]

/-- C7 counterexample: when the timer fires, the kill signal issued is
addressed to the spawned child process only (spawn has no detached option
and child.kill signals the child pid), never to the whole process group ---
contradicting the claim that on expiry the whole process group is forcibly
terminated. -/
theorem c7_counterexample :
    (runCommandEvents 300000 [CmdEvent.timerFires]).kills
        = [KillTarget.childOnly]
      ∧ ((runCommandEvents 300000 [CmdEvent.timerFires]).kills.contains
          KillTarget.processGroup) = false
      ∧ (runCommandEvents 300000 [CmdEvent.timerFires]).settled
        = some (Except.error (CmdFailure.timedOut 300000)) := by
  decide

/-- C7 amended: when the wall-clock timer expires, the spawned child process
(not its whole process group) is sent the kill signal and the settled
failure is the distinct timeout failure, surviving all later events; when
the command closes before the timer fires (any data-only prefix), the timer
is cancelled at once, no kill signal is ever issued afterwards, and the
settlement is determined by the exit code --- an exit failure, which is a
different constructor from the timeout failure. -/
theorem c7_timeout_kill_and_cancel (ms : Nat) :
    (∀ evs : List CmdEvent,
      (runCommandEvents ms (CmdEvent.timerFires :: evs)).kills
          = [KillTarget.childOnly]
        ∧ (runCommandEvents ms (CmdEvent.timerFires :: evs)).settled
          = some (Except.error (CmdFailure.timedOut ms)))
      ∧ (∀ (pre evs : List CmdEvent) (code : Int),
          pre.all isCmdDataEvent = true →
          (runCommandEvents ms (pre ++ CmdEvent.closed code :: evs)).kills = []
            ∧ (code ≠ 0 → ∃ d,
                (runCommandEvents ms (pre ++ CmdEvent.closed code :: evs)).settled
                  = some (Except.error (CmdFailure.exitFailure code d)))
            ∧ (code = 0 → ∃ outp,
                (runCommandEvents ms (pre ++ CmdEvent.closed code :: evs)).settled
                  = some (Except.ok outp)))
      ∧ (∀ (code : Int) (d : String),
          CmdFailure.timedOut ms ≠ CmdFailure.exitFailure code d) := by
  refine ⟨?_, ?_, ?_⟩
  · intro evs
    unfold runCommandEvents
    rw [List.foldl_cons]
    have hstep : cmdStep ms cmdInit CmdEvent.timerFires
        = { timerArmed := false, isTimedOut := true
            settled := some (Except.error (CmdFailure.timedOut ms))
            kills := [KillTarget.childOnly], stdoutAcc := "", stderrAcc := "" } := by
      simp [cmdStep, cmdInit, Option.orElse]
    rw [hstep]
    constructor
    · exact (cmdRun_disarmed ms evs _ rfl).2
    · exact cmdRun_keeps_settled ms evs _ _ rfl
  · intro pre evs code hpre
    have hdata := cmdRun_data ms pre cmdInit hpre
    have hstep := closedStep_after_data ms (pre.foldl (cmdStep ms) cmdInit)
      code (by rw [hdata.2.1]; rfl) (by rw [hdata.2.2.1]; rfl)
      (by rw [hdata.2.2.2]; rfl)
    unfold runCommandEvents
    rw [List.foldl_append, List.foldl_cons]
    refine ⟨?_, ?_, ?_⟩
    · have h2 := cmdRun_disarmed ms evs
        (cmdStep ms (pre.foldl (cmdStep ms) cmdInit) (CmdEvent.closed code))
        hstep.1
      rw [h2.2, hstep.2.1]
    · intro hc
      obtain ⟨d, hd⟩ := hstep.2.2.1 hc
      exact ⟨d, cmdRun_keeps_settled ms evs _ _ hd⟩
    · intro hc
      obtain ⟨outp, hd⟩ := hstep.2.2.2 hc
      exact ⟨outp, cmdRun_keeps_settled ms evs _ _ hd⟩
  · intro code d h
    exact CmdFailure.noConfusion h

/-- Witness for C7: the timer firing first kills the child only and settles
the timeout failure; a close with exit code 1 before any timer event leaves
no kill even when the timer event is delivered later, and settles a distinct
exit failure. -/
theorem c7_timeout_kill_and_cancel_witness :
    ([] : List CmdEvent).all isCmdDataEvent = true
      ∧ (runCommandEvents 300000 (CmdEvent.timerFires :: [CmdEvent.closed 0])).kills
        = [KillTarget.childOnly]
      ∧ (runCommandEvents 300000
          ([] ++ CmdEvent.closed 1 :: [CmdEvent.timerFires])).kills = []
      ∧ (∃ d, (runCommandEvents 300000
          ([] ++ CmdEvent.closed 1 :: [CmdEvent.timerFires])).settled
            = some (Except.error (CmdFailure.exitFailure 1 d))) :=
  ⟨rfl,
    ((c7_timeout_kill_and_cancel 300000).1 [CmdEvent.closed 0]).1,
    ((c7_timeout_kill_and_cancel 300000).2.1 [] [CmdEvent.timerFires] 1 rfl).1,
    ((c7_timeout_kill_and_cancel 300000).2.1 [] [CmdEvent.timerFires] 1
      rfl).2.1 (by decide)⟩

end RobustPreview
